import Mathlib

/-!
Shallow embedding of `src/server.js` of the team-calendar service: a small
Express + MongoDB backend with three collections (team members, time-off
entries, on-call rotation) and a public-holiday proxy endpoint.  Each route
handler is modelled as a pure function from the request data and the store
state to the HTTP response and the new store state.
-/

namespace TeamCalendar

/-- JSON values, as parsed by the `express.json()` body middleware and as
stored in the `rotationData` field of the on-call singleton document. -/
inductive Json where
  | null
  | bool (b : Bool)
  | num (n : Int)
  | str (s : String)
  | arr (elems : List Json)
  | obj (fields : List (String × Json))

/-- JavaScript truthiness of a JSON value (`v || {}` keeps `v` iff truthy). -/
def Json.truthy : Json → Bool
  | .null => false
  | .bool b => b
  | .num n => n != 0
  | .str s => s != ""
  | .arr _ => true
  | .obj _ => true

/-- `express.json()` in its default strict mode only delivers a top-level
object or array to the handlers; any other JSON text is rejected by the
middleware before a route handler runs. -/
def Json.strictBody : Json → Prop
  | .arr _ => True
  | .obj _ => True
  | _ => False

/-- A document of the `teamMembers` collection.  Fields are optional so that
arbitrary store states (missing / null fields) can be quantified over. -/
structure Member where
  id : Option Int
  name : Option String
deriving DecidableEq

/-- A document of the `timeOffEntries` collection. -/
structure TimeOff where
  id : Option Int
  memberId : Option Int
  kind : Option String
  startDate : Option String
  endDate : Option String
  notes : Option String
deriving DecidableEq

/-- A document of the `onCallRotation` collection. -/
structure RotDoc where
  scheduleName : String
  rotationData : Option Json

/-- The whole document store (`timeOffDB` database). -/
structure DB where
  members : List Member
  timeoff : List TimeOff
  oncall : List RotDoc

/-- The empty store. -/
def DB.empty : DB := ⟨[], [], []⟩

/-! ### JavaScript `parseInt` on a path parameter

`parseInt(s)` skips leading whitespace, reads an optional sign and then the
longest prefix of decimal digits; it is `NaN` (modelled as `none`) when no
digit is found. -/

/-- Value of a list of decimal digit characters. -/
def digitsVal (ds : List Char) : Nat :=
  ds.foldl (fun a c => a * 10 + (c.toNat - 48)) 0

/-- Parse the leading run of decimal digits, `none` when there is none. -/
def parseDigits (cs : List Char) : Option Nat :=
  let ds := cs.takeWhile (·.isDigit)
  if ds = [] then none else some (digitsVal ds)

/-- JavaScript `parseInt` restricted to base 10; `none` models `NaN`. -/
def parseIntJS (s : String) : Option Int :=
  let cs := s.data.dropWhile (·.isWhitespace)
  match cs with
  | '-' :: rest => (parseDigits rest).map (fun n => -(n : Int))
  | '+' :: rest => (parseDigits rest).map (fun n => (n : Int))
  | _ => (parseDigits cs).map (fun n => (n : Int))

/-! ### MongoDB primitives

The BSON comparison order used by `.sort(...)` puts a missing or null field
below every number and below every string, so an optional field is ordered
with `none` first.  `deleteOne` removes the first matching document,
`deleteMany` and `find` scan the whole collection. -/

/-- Order on an optional sort key: a missing/null field sorts lowest. -/
def optLe {α : Type} (le : α → α → Prop) : Option α → Option α → Prop
  | none, _ => True
  | some _, none => False
  | some a, some b => le a b

instance {α : Type} (le : α → α → Prop) [DecidableRel le] :
    DecidableRel (optLe le) := fun a b =>
  match a, b with
  | none, _ => isTrue trivial
  | some _, none => isFalse (fun h => h)
  | some x, some y => inferInstanceAs (Decidable (le x y))

/-- Equality match of a query value against a document field.  A `none`
query value models `NaN` (from `parseInt`), which matches no stored id. -/
def idMatches (q field : Option Int) : Bool :=
  match q with
  | none => false
  | some n => field == some n

/-- `deleteOne`: remove the first document satisfying the filter. -/
def deleteOneBy {α : Type} (p : α → Bool) : List α → List α
  | [] => []
  | d :: ds => if p d then ds else d :: deleteOneBy p ds

/-! ### Sort relations used by the handlers -/

/-- Ascending order on the `name` field (`.sort({ name: 1 })`). -/
def memberNameLe (a b : Member) : Prop := optLe (· ≤ ·) a.name b.name

instance : DecidableRel memberNameLe := fun a b =>
  inferInstanceAs (Decidable (optLe (· ≤ ·) a.name b.name))

instance : IsTotal Member memberNameLe where
  total a b := by
    unfold memberNameLe
    cases a.name <;> cases b.name <;> simp [optLe] <;> exact le_total _ _

instance : IsTrans Member memberNameLe where
  trans a b c := by
    unfold memberNameLe
    cases a.name <;> cases b.name <;> cases c.name <;> simp [optLe]
    exact le_trans

/-- Descending order on the `id` field (`.sort({ id: -1 })`), for members. -/
def memberIdGe (a b : Member) : Prop := optLe (· ≤ ·) b.id a.id

instance : DecidableRel memberIdGe := fun a b =>
  inferInstanceAs (Decidable (optLe (· ≤ ·) b.id a.id))

instance : IsTotal Member memberIdGe where
  total a b := by
    unfold memberIdGe
    cases a.id <;> cases b.id <;> simp [optLe] <;> exact le_total _ _

instance : IsTrans Member memberIdGe where
  trans a b c := by
    unfold memberIdGe
    cases a.id <;> cases b.id <;> cases c.id <;> simp [optLe]
    exact fun h h' => le_trans h' h

/-- Descending order on the `id` field, for time-off entries. -/
def timeOffIdGe (a b : TimeOff) : Prop := optLe (· ≤ ·) b.id a.id

instance : DecidableRel timeOffIdGe := fun a b =>
  inferInstanceAs (Decidable (optLe (· ≤ ·) b.id a.id))

instance : IsTotal TimeOff timeOffIdGe where
  total a b := by
    unfold timeOffIdGe
    cases a.id <;> cases b.id <;> simp [optLe] <;> exact le_total _ _

instance : IsTrans TimeOff timeOffIdGe where
  trans a b c := by
    unfold timeOffIdGe
    cases a.id <;> cases b.id <;> cases c.id <;> simp [optLe]
    exact fun h h' => le_trans h' h

/-- Descending order on the `startDate` field (`.sort({ startDate: -1 })`). -/
def startDateGe (a b : TimeOff) : Prop := optLe (· ≤ ·) b.startDate a.startDate

instance : DecidableRel startDateGe := fun a b =>
  inferInstanceAs (Decidable (optLe (· ≤ ·) b.startDate a.startDate))

instance : IsTotal TimeOff startDateGe where
  total a b := by
    unfold startDateGe
    cases a.startDate <;> cases b.startDate <;> simp [optLe] <;> exact le_total _ _

instance : IsTrans TimeOff startDateGe where
  trans a b c := by
    unfold startDateGe
    cases a.startDate <;> cases b.startDate <;> cases c.startDate <;> simp [optLe]
    exact fun h h' => le_trans h' h

/-! ### Route handlers -/

/-- `GET /api/members`: `find().sort({ name: 1 }).toArray()`, status 200. -/
def getMembers (db : DB) : Nat × List Member :=
  (200, List.insertionSort memberNameLe db.members)

/-- `GET /api/timeoff`: `find().sort({ startDate: -1 }).toArray()`, 200. -/
def getTimeOff (db : DB) : Nat × List TimeOff :=
  (200, List.insertionSort startDateGe db.timeoff)

/-- `find().sort({ id: -1 }).limit(1)` on the members collection, followed by
`lastMember.length > 0 ? (lastMember[0].id || 0) + 1 : 1`. -/
def nextMemberId (db : DB) : Int :=
  match (List.insertionSort memberIdGe db.members).head? with
  | none => 1
  | some d => d.id.getD 0 + 1

/-- Same id computation on the time-off collection. -/
def nextTimeOffId (db : DB) : Int :=
  match (List.insertionSort timeOffIdGe db.timeoff).head? with
  | none => 1
  | some d => d.id.getD 0 + 1

/-- JavaScript falsiness of the `name` body field: absent or empty string. -/
def nameFalsy : Option String → Bool
  | none => true
  | some s => s == ""

/-- Response body of `POST /api/members`. -/
inductive MemberPostOut where
  | created (m : Member)
  | message (msg : String)
deriving DecidableEq

/-- `POST /api/members`: validate `name`, compute the next id, insert. -/
def postMember (name : Option String) (db : DB) : (Nat × MemberPostOut) × DB :=
  if nameFalsy name then ((400, .message "Name is required"), db)
  else
    let newMember : Member := { id := some (nextMemberId db), name := name }
    ((201, .created newMember), { db with members := db.members ++ [newMember] })

/-- `DELETE /api/members/:id`: `deleteOne({ id })` on members and
`deleteMany({ memberId })` on time-off entries; always acknowledges. -/
def deleteMember (idStr : String) (db : DB) : (Nat × String) × DB :=
  let memberId := parseIntJS idStr
  ((200, "Member and their entries deleted"),
   { db with
     members := deleteOneBy (fun m => idMatches memberId m.id) db.members,
     timeoff := db.timeoff.filter (fun e => !idMatches memberId e.memberId) })

/-- Request body of `POST /api/timeoff` (each field may be absent). -/
structure TimeOffBody where
  memberId : Option Int
  kind : Option String
  startDate : Option String
  endDate : Option String
  notes : Option String

/-- `POST /api/timeoff`: no validation, compute the next id, insert. -/
def postTimeOff (b : TimeOffBody) (db : DB) : (Nat × TimeOff) × DB :=
  let newEntry : TimeOff :=
    { id := some (nextTimeOffId db), memberId := b.memberId, kind := b.kind,
      startDate := b.startDate, endDate := b.endDate, notes := b.notes }
  ((201, newEntry), { db with timeoff := db.timeoff ++ [newEntry] })

/-- `DELETE /api/timeoff/:id`: `deleteOne({ id: parseInt(...) })`. -/
def deleteTimeOff (idStr : String) (db : DB) : (Nat × String) × DB :=
  ((200, "Time off entry deleted"),
   { db with
     timeoff := deleteOneBy (fun e => idMatches (parseIntJS idStr) e.id) db.timeoff })

/-- `GET /api/oncall`: `findOne({ scheduleName: "main" })`, then
`rotation.rotationData || {}` when found, else `{}`. -/
def getOncall (db : DB) : Nat × Json :=
  match db.oncall.find? (fun r => r.scheduleName == "main") with
  | some r =>
    (200, match r.rotationData with
          | some v => if v.truthy then v else .obj []
          | none => .obj [])
  | none => (200, .obj [])

/-- `updateOne({ scheduleName: "main" }, { $set: { rotationData } },
{ upsert: true })`: update the first matching document, or insert
`{ scheduleName: "main", rotationData }` when none matches. -/
def upsertMain (p : Json) : List RotDoc → List RotDoc
  | [] => [{ scheduleName := "main", rotationData := some p }]
  | r :: rs =>
    if r.scheduleName == "main" then { r with rotationData := some p } :: rs
    else r :: upsertMain p rs

/-- `POST /api/oncall`: upsert the whole body into the singleton, status 200. -/
def postOncall (payload : Json) (db : DB) : (Nat × String) × DB :=
  ((200, "On-call schedule saved successfully"),
   { db with oncall := upsertMain payload db.oncall })

/-- The fixed country set of the holidays endpoint. -/
def countries : List String := ["SK", "NO", "DK"]

/-- `Promise.all`: succeeds with all values iff every promise succeeds,
fails as soon as any fails. -/
def promiseAll {α : Type} : List (Except String α) → Except String (List α)
  | [] => .ok []
  | .ok a :: rest => (promiseAll rest).map (a :: ·)
  | .error e :: rest => .error e

/-- Response body of `GET /api/holidays/:year`. -/
inductive HolidayOut where
  | payload (l : List Json)
  | message (msg : String)

/-- `GET /api/holidays/:year`: one fetch per country, join on all, flatten
on success, generic 500 on any failure.  `fetchFor` gives each country's
outbound-fetch outcome for the requested year. -/
def getHolidays (fetchFor : String → Except String (List Json)) :
    Nat × HolidayOut :=
  match promiseAll (countries.map fetchFor) with
  | .ok arrays => (200, .payload arrays.flatten)
  | .error _ => (500, .message "Failed to fetch public holidays")

/-! ### Helper lemmas -/

/-- The head of the descending sort is in the list and `r`-below everything. -/
theorem head_insertionSort_rel {α : Type} (r : α → α → Prop) [DecidableRel r]
    [IsTotal α r] [IsTrans α r] {l : List α} {h : α}
    (hh : (List.insertionSort r l).head? = some h) :
    h ∈ l ∧ ∀ x ∈ l, r h x := by
  have hs := List.sorted_insertionSort r l
  cases hsort : List.insertionSort r l with
  | nil => rw [hsort] at hh; simp at hh
  | cons a t =>
    rw [hsort] at hh hs
    have ha : a = h := by simpa using hh
    subst ha
    constructor
    · exact (List.mem_insertionSort r).1 (by rw [hsort]; exact List.mem_cons_self a t)
    · intro x hx
      have hx' : x ∈ a :: t := by
        rw [← hsort]; exact (List.mem_insertionSort r).2 hx
      rcases List.mem_cons.1 hx' with rfl | hxt
      · rcases IsTotal.total (r := r) x x with h' | h' <;> exact h'
      · exact List.rel_of_sorted_cons hs x hxt

/-- When some member carries the maximum present id `m`, the handler's
sort-descending-take-first computation yields `m + 1`. -/
theorem nextMemberId_eq_max (db : DB) (m : Int)
    (hmem : ∃ d ∈ db.members, d.id = some m)
    (hmax : ∀ d ∈ db.members, ∀ n : Int, d.id = some n → n ≤ m) :
    nextMemberId db = m + 1 := by
  obtain ⟨d, hd, hdid⟩ := hmem
  cases hh : (List.insertionSort memberIdGe db.members).head? with
  | none =>
    rw [List.head?_eq_none_iff] at hh
    have hmem' : d ∈ List.insertionSort memberIdGe db.members :=
      (List.mem_insertionSort memberIdGe).2 hd
    rw [hh] at hmem'
    cases hmem'
  | some d0 =>
    obtain ⟨hd0mem, hall⟩ := head_insertionSort_rel memberIdGe hh
    have h1 : memberIdGe d0 d := hall d hd
    unfold memberIdGe at h1
    rw [hdid] at h1
    cases hid0 : d0.id with
    | none => rw [hid0] at h1; exact absurd h1 (by simp [optLe])
    | some k =>
      rw [hid0] at h1
      have hk : m ≤ k := h1
      have hk2 : k ≤ m := hmax d0 hd0mem k hid0
      have hkm : k = m := le_antisymm hk2 hk
      simp [nextMemberId, hh, hid0, hkm]

/-- Same fact for the time-off collection. -/
theorem nextTimeOffId_eq_max (db : DB) (m : Int)
    (hmem : ∃ d ∈ db.timeoff, d.id = some m)
    (hmax : ∀ d ∈ db.timeoff, ∀ n : Int, d.id = some n → n ≤ m) :
    nextTimeOffId db = m + 1 := by
  obtain ⟨d, hd, hdid⟩ := hmem
  cases hh : (List.insertionSort timeOffIdGe db.timeoff).head? with
  | none =>
    rw [List.head?_eq_none_iff] at hh
    have hmem' : d ∈ List.insertionSort timeOffIdGe db.timeoff :=
      (List.mem_insertionSort timeOffIdGe).2 hd
    rw [hh] at hmem'
    cases hmem'
  | some d0 =>
    obtain ⟨hd0mem, hall⟩ := head_insertionSort_rel timeOffIdGe hh
    have h1 : timeOffIdGe d0 d := hall d hd
    unfold timeOffIdGe at h1
    rw [hdid] at h1
    cases hid0 : d0.id with
    | none => rw [hid0] at h1; exact absurd h1 (by simp [optLe])
    | some k =>
      rw [hid0] at h1
      have hk : m ≤ k := h1
      have hk2 : k ≤ m := hmax d0 hd0mem k hid0
      have hkm : k = m := le_antisymm hk2 hk
      simp [nextTimeOffId, hh, hid0, hkm]

/-- `deleteOne` on a collection without a matching document is a no-op. -/
theorem deleteOneBy_eq_self {α : Type} (p : α → Bool) (l : List α)
    (h : ∀ a ∈ l, p a = false) : deleteOneBy p l = l := by
  induction l with
  | nil => rfl
  | cons d ds ih =>
    simp [deleteOneBy, h d (List.mem_cons_self d ds),
      ih (fun a ha => h a (List.mem_cons_of_mem d ha))]

/-- With at most one matching document, `deleteOne` agrees with removing
every match. -/
theorem deleteOneBy_eq_filter {α : Type} (p : α → Bool) (l : List α)
    (h : l.Pairwise (fun a b => p a = true → p b = false)) :
    deleteOneBy p l = l.filter (fun a => !p a) := by
  induction l with
  | nil => rfl
  | cons d ds ih =>
    rcases List.pairwise_cons.1 h with ⟨hd, hds⟩
    by_cases hp : p d = true
    · have hall : ∀ a ∈ ds, p a = false := fun a ha => hd a ha hp
      have hfds : List.filter (fun a => !p a) ds = ds :=
        List.filter_eq_self.2 (fun a ha => by rw [hall a ha]; rfl)
      rw [deleteOneBy, if_pos hp, List.filter_cons]
      simp [hp, hfds]
    · rw [List.filter_cons]
      have hp' : p d = false := by simpa using hp
      simp only [hp', Bool.not_false, if_pos trivial]
      rw [deleteOneBy, if_neg hp, ih hds]

/-- `Promise.all` fails whenever any constituent promise fails. -/
theorem promiseAll_eq_error {α : Type} (l : List (Except String α))
    (h : ∃ x ∈ l, ∃ e, x = .error e) : ∃ e, promiseAll l = .error e := by
  induction l with
  | nil => rcases h with ⟨y, hy, _⟩; cases hy
  | cons x xs ih =>
    rcases h with ⟨y, hy, e, hye⟩
    rcases List.mem_cons.1 hy with rfl | hyt
    · subst hye
      exact ⟨e, rfl⟩
    · cases x with
      | ok a =>
        obtain ⟨e', he'⟩ := ih ⟨y, hyt, e, hye⟩
        exact ⟨e', by simp [promiseAll, he', Except.map]⟩
      | error e2 => exact ⟨e2, rfl⟩

/-- After an upsert of the singleton on-call document, `findOne` retrieves a
document whose `rotationData` is the upserted payload. -/
theorem find_main_upsertMain (p : Json) (l : List RotDoc) :
    ∃ r, (upsertMain p l).find? (fun d => d.scheduleName == "main") = some r ∧
      r.rotationData = some p := by
  induction l with
  | nil => exact ⟨⟨"main", some p⟩, by simp [upsertMain], rfl⟩
  | cons d ds ih =>
    by_cases hd : d.scheduleName == "main"
    · refine ⟨{ d with rotationData := some p }, ?_, rfl⟩
      simp [upsertMain, hd]
    · obtain ⟨r, hr, hrd⟩ := ih
      refine ⟨r, ?_, hrd⟩
      have hd' : (d.scheduleName == "main") = false := by simpa using hd
      simp [upsertMain, hd', hr]

/-! ### Claim theorems -/

/-- C1: for a single serialized creation via `POST /api/members` or
`POST /api/timeoff`, the id assigned to the created document equals the
maximum id existing in that collection plus one, and the created document
with that id is returned with status 201. -/
theorem claim1_created_id_is_max_plus_one :
    (∀ (db : DB) (m : Int) (name : Option String),
        (∃ d ∈ db.members, d.id = some m) →
        (∀ d ∈ db.members, ∀ n : Int, d.id = some n → n ≤ m) →
        nameFalsy name = false →
        postMember name db =
          ((201, .created { id := some (m + 1), name := name }),
           { db with members := db.members ++ [{ id := some (m + 1), name := name }] })) ∧
    (∀ (db : DB) (m : Int) (b : TimeOffBody),
        (∃ d ∈ db.timeoff, d.id = some m) →
        (∀ d ∈ db.timeoff, ∀ n : Int, d.id = some n → n ≤ m) →
        postTimeOff b db =
          ((201, { id := some (m + 1), memberId := b.memberId, kind := b.kind,
                   startDate := b.startDate, endDate := b.endDate, notes := b.notes }),
           { db with timeoff := db.timeoff ++
               [{ id := some (m + 1), memberId := b.memberId, kind := b.kind,
                  startDate := b.startDate, endDate := b.endDate, notes := b.notes }] })) := by
  constructor
  · intro db m name hmem hmax hname
    have hid := nextMemberId_eq_max db m hmem hmax
    simp [postMember, hname, hid]
  · intro db m b hmem hmax
    have hid := nextTimeOffId_eq_max db m hmem hmax
    simp [postTimeOff, hid]

/-- Witness for C1 at concrete stores: max member id 1 yields id 2, max
time-off id 3 yields id 4. -/
theorem claim1_witness :
    postMember (some "bob") ⟨[⟨some 1, some "alice"⟩], [], []⟩ =
      ((201, .created ⟨some 2, some "bob"⟩),
       ⟨[⟨some 1, some "alice"⟩, ⟨some 2, some "bob"⟩], [], []⟩) ∧
    postTimeOff ⟨some 1, some "vacation", some "2025-01-02", some "2025-01-05", none⟩
        ⟨[], [⟨some 3, some 1, none, none, none, none⟩], []⟩ =
      ((201, ⟨some 4, some 1, some "vacation", some "2025-01-02", some "2025-01-05", none⟩),
       ⟨[], [⟨some 3, some 1, none, none, none, none⟩,
             ⟨some 4, some 1, some "vacation", some "2025-01-02", some "2025-01-05", none⟩],
        []⟩) :=
  ⟨claim1_created_id_is_max_plus_one.1 _ 1 _
      ⟨⟨some 1, some "alice"⟩, by simp, rfl⟩
      (by intro d hd n hn; simp at hd; subst hd; simp at hn; omega) rfl,
   claim1_created_id_is_max_plus_one.2 _ 3 _
      ⟨⟨some 3, some 1, none, none, none, none⟩, by simp, rfl⟩
      (by intro d hd n hn; simp at hd; subst hd; simp at hn; omega)⟩

/-- C4: when the `name` body field is absent or empty, `POST /api/members`
responds 400 with a message and inserts nothing. -/
theorem claim4_member_requires_name (db : DB) (name : Option String)
    (h : name = none ∨ name = some "") :
    postMember name db = ((400, .message "Name is required"), db) := by
  rcases h with rfl | rfl <;> rfl

/-- Witness for C4: absent name on the empty store. -/
theorem claim4_witness :
    postMember none DB.empty = ((400, .message "Name is required"), DB.empty) :=
  claim4_member_requires_name DB.empty none (Or.inl rfl)

/-- C6: `GET /api/members` returns all member documents sorted ascending by
`name`, and `GET /api/timeoff` returns all time-off documents sorted
descending by `startDate`. -/
theorem claim6_listings_sorted (db : DB) :
    ((getMembers db).1 = 200 ∧ (getMembers db).2.Perm db.members ∧
      List.Sorted memberNameLe (getMembers db).2) ∧
    ((getTimeOff db).1 = 200 ∧ (getTimeOff db).2.Perm db.timeoff ∧
      List.Sorted startDateGe (getTimeOff db).2) :=
  ⟨⟨rfl, List.perm_insertionSort _ _, List.sorted_insertionSort _ _⟩,
   ⟨rfl, List.perm_insertionSort _ _, List.sorted_insertionSort _ _⟩⟩

/-- C7: `POST /api/timeoff` validates nothing: it always inserts a document
carrying exactly the provided field values plus the assigned id, returns the
created document with status 201, and never returns a 4xx client error. -/
theorem claim7_timeoff_no_validation (db : DB) (b : TimeOffBody) :
    postTimeOff b db =
      ((201, { id := some (nextTimeOffId db), memberId := b.memberId, kind := b.kind,
               startDate := b.startDate, endDate := b.endDate, notes := b.notes }),
       { db with timeoff := db.timeoff ++
           [{ id := some (nextTimeOffId db), memberId := b.memberId, kind := b.kind,
              startDate := b.startDate, endDate := b.endDate, notes := b.notes }] }) ∧
    ¬(400 ≤ (postTimeOff b db).1.1 ∧ (postTimeOff b db).1.1 < 500) :=
  ⟨rfl, by simp [postTimeOff]⟩

/-- C2: with a numeric id `M` (and ids unique, as a single serialized
creation sequence guarantees), `DELETE /api/members/:id` removes the member
document with id `M` and every time-off entry with `memberId = M`, leaves
all other documents unchanged, acknowledges with 200 regardless, and is
idempotent. -/
theorem claim2_delete_member_cascade (db : DB) (s : String) (M : Int)
    (hparse : parseIntJS s = some M)
    (huniq : db.members.Pairwise (fun a b => a.id = some M → b.id ≠ some M)) :
    (deleteMember s db).1 = (200, "Member and their entries deleted") ∧
    (deleteMember s db).2.members = db.members.filter (fun m => !(m.id == some M)) ∧
    (deleteMember s db).2.timeoff = db.timeoff.filter (fun e => !(e.memberId == some M)) ∧
    (deleteMember s db).2.oncall = db.oncall ∧
    deleteMember s (deleteMember s db).2 =
      ((200, "Member and their entries deleted"), (deleteMember s db).2) := by
  have hmem2 : (deleteMember s db).2.members
      = db.members.filter (fun m => !(m.id == some M)) := by
    show deleteOneBy (fun m => idMatches (parseIntJS s) m.id) db.members = _
    rw [hparse]
    refine deleteOneBy_eq_filter _ _ (huniq.imp ?_)
    intro a b hab h
    have ha : a.id = some M := by simpa [idMatches] using h
    simpa [idMatches] using hab ha
  have htoff : (deleteMember s db).2.timeoff
      = db.timeoff.filter (fun e => !(e.memberId == some M)) := by
    show db.timeoff.filter (fun e => !idMatches (parseIntJS s) e.memberId) = _
    rw [hparse]
    rfl
  refine ⟨rfl, hmem2, htoff, rfl, ?_⟩
  have hm' : deleteOneBy (fun m => idMatches (parseIntJS s) m.id)
      (deleteMember s db).2.members = (deleteMember s db).2.members := by
    apply deleteOneBy_eq_self
    intro a ha
    rw [hmem2] at ha
    have hfa := (List.mem_filter.1 ha).2
    rw [hparse]
    show (a.id == some M) = false
    simpa using hfa
  have ht' : (deleteMember s db).2.timeoff.filter
      (fun e => !idMatches (parseIntJS s) e.memberId) = (deleteMember s db).2.timeoff := by
    apply List.filter_eq_self.2
    intro a ha
    rw [htoff] at ha
    have hfa := (List.mem_filter.1 ha).2
    rw [hparse]
    exact hfa
  show ((200, "Member and their entries deleted"),
      ({ (deleteMember s db).2 with
         members := deleteOneBy (fun m => idMatches (parseIntJS s) m.id)
           (deleteMember s db).2.members,
         timeoff := (deleteMember s db).2.timeoff.filter
           (fun e => !idMatches (parseIntJS s) e.memberId) } : DB)) = _
  rw [hm', ht']

/-- Witness for C2: deleting member 1 from a two-member store with two
time-off entries. -/
theorem claim2_witness :
    (deleteMember "1" ⟨[⟨some 1, some "a"⟩, ⟨some 2, some "b"⟩],
        [⟨some 1, some 1, none, none, none, none⟩,
         ⟨some 2, some 2, none, none, none, none⟩], []⟩).1
      = (200, "Member and their entries deleted") ∧
    (deleteMember "1" ⟨[⟨some 1, some "a"⟩, ⟨some 2, some "b"⟩],
        [⟨some 1, some 1, none, none, none, none⟩,
         ⟨some 2, some 2, none, none, none, none⟩], []⟩).2.members
      = [⟨some 2, some "b"⟩] ∧
    (deleteMember "1" ⟨[⟨some 1, some "a"⟩, ⟨some 2, some "b"⟩],
        [⟨some 1, some 1, none, none, none, none⟩,
         ⟨some 2, some 2, none, none, none, none⟩], []⟩).2.timeoff
      = [⟨some 2, some 2, none, none, none, none⟩] ∧
    (deleteMember "1" ⟨[⟨some 1, some "a"⟩, ⟨some 2, some "b"⟩],
        [⟨some 1, some 1, none, none, none, none⟩,
         ⟨some 2, some 2, none, none, none, none⟩], []⟩).2.oncall = [] ∧
    deleteMember "1" (deleteMember "1" ⟨[⟨some 1, some "a"⟩, ⟨some 2, some "b"⟩],
        [⟨some 1, some 1, none, none, none, none⟩,
         ⟨some 2, some 2, none, none, none, none⟩], []⟩).2
      = ((200, "Member and their entries deleted"),
         (deleteMember "1" ⟨[⟨some 1, some "a"⟩, ⟨some 2, some "b"⟩],
            [⟨some 1, some 1, none, none, none, none⟩,
             ⟨some 2, some 2, none, none, none, none⟩], []⟩).2) :=
  claim2_delete_member_cascade _ "1" 1 (by decide) (by decide)

/-- C3: `GET /api/oncall` on a store whose singleton was never written
returns `{}`; after `POST /api/oncall` with a payload accepted by the JSON
body middleware (a top-level object or array), `GET /api/oncall` returns
exactly that payload — whole-object replacement, no merge. -/
theorem claim3_rotation_replacement :
    (∀ db : DB, (∀ r ∈ db.oncall, ¬(r.scheduleName = "main")) →
        getOncall db = (200, Json.obj [])) ∧
    (∀ (db : DB) (P : Json), P.strictBody →
        getOncall (postOncall P db).2 = (200, P)) := by
  constructor
  · intro db h
    have hf : db.oncall.find? (fun d => d.scheduleName == "main") = none := by
      rw [List.find?_eq_none]
      intro r hr
      simpa using h r hr
    simp [getOncall, hf]
  · intro db P hP
    obtain ⟨r, hr, hrd⟩ := find_main_upsertMain P db.oncall
    have htr : P.truthy = true := by
      cases P with
      | arr l => rfl
      | obj l => rfl
      | null => exact (hP : False).elim
      | bool b => exact (hP : False).elim
      | num n => exact (hP : False).elim
      | str s2 => exact (hP : False).elim
    show getOncall { db with oncall := upsertMain P db.oncall } = (200, P)
    simp [getOncall, hr, hrd, htr]

/-- Witness for C3: empty store reads `{}`; a posted object reads back
unchanged. -/
theorem claim3_witness :
    getOncall DB.empty = (200, Json.obj []) ∧
    getOncall (postOncall (Json.obj [("week", Json.str "alice")]) DB.empty).2 =
      (200, Json.obj [("week", Json.str "alice")]) :=
  ⟨claim3_rotation_replacement.1 DB.empty (fun r hr => nomatch hr),
   claim3_rotation_replacement.2 DB.empty _ True.intro⟩

/-- C9: with a non-numeric `:id` path parameter (integer parse yields NaN),
both delete endpoints match nothing, change nothing, and still acknowledge
with status 200 — no 4xx is produced. -/
theorem claim9_nonnumeric_delete (db : DB) (s : String)
    (h : parseIntJS s = none) :
    deleteMember s db = ((200, "Member and their entries deleted"), db) ∧
    deleteTimeOff s db = ((200, "Time off entry deleted"), db) := by
  have hm : deleteOneBy (fun m : Member => idMatches (parseIntJS s) m.id) db.members
      = db.members :=
    deleteOneBy_eq_self _ _ (fun a _ => by rw [h]; rfl)
  have ht : db.timeoff.filter (fun e => !idMatches (parseIntJS s) e.memberId) = db.timeoff :=
    List.filter_eq_self.2 (fun a _ => by rw [h]; rfl)
  have ht2 : deleteOneBy (fun e : TimeOff => idMatches (parseIntJS s) e.id) db.timeoff
      = db.timeoff :=
    deleteOneBy_eq_self _ _ (fun a _ => by rw [h]; rfl)
  constructor
  · show ((200, "Member and their entries deleted"),
      ({ db with
         members := deleteOneBy (fun m => idMatches (parseIntJS s) m.id) db.members,
         timeoff := db.timeoff.filter
           (fun e => !idMatches (parseIntJS s) e.memberId) } : DB)) = _
    rw [hm, ht]
  · show ((200, "Time off entry deleted"),
      ({ db with
         timeoff := deleteOneBy (fun e => idMatches (parseIntJS s) e.id)
           db.timeoff } : DB)) = _
    rw [ht2]

/-- Witness for C9: the parameter `"abc"` parses to NaN and deletes
nothing. -/
theorem claim9_witness :
    deleteMember "abc" ⟨[⟨some 1, some "a"⟩], [⟨some 1, some 1, none, none, none, none⟩], []⟩
      = ((200, "Member and their entries deleted"),
         ⟨[⟨some 1, some "a"⟩], [⟨some 1, some 1, none, none, none, none⟩], []⟩) ∧
    deleteTimeOff "abc" ⟨[⟨some 1, some "a"⟩], [⟨some 1, some 1, none, none, none, none⟩], []⟩
      = ((200, "Time off entry deleted"),
         ⟨[⟨some 1, some "a"⟩], [⟨some 1, some 1, none, none, none, none⟩], []⟩) :=
  claim9_nonnumeric_delete _ "abc" (by decide)

/-- C10: when the singleton rotation document exists but its `rotationData`
is absent or falsy, `GET /api/oncall` returns `{}` — the very response a
never-written rotation produces, so the two are indistinguishable. -/
theorem claim10_falsy_rotation (db : DB) (r : RotDoc)
    (hfind : db.oncall.find? (fun d => d.scheduleName == "main") = some r)
    (hfalsy : r.rotationData = none ∨ ∃ v, r.rotationData = some v ∧ v.truthy = false) :
    getOncall db = (200, Json.obj []) := by
  rcases hfalsy with hn | ⟨v, hv, hvf⟩
  · simp [getOncall, hfind, hn]
  · simp [getOncall, hfind, hv, hvf]

/-- Witness for C10: a singleton whose `rotationData` is JSON `null`. -/
theorem claim10_witness :
    getOncall ⟨[], [], [⟨"main", some Json.null⟩]⟩ = (200, Json.obj []) :=
  claim10_falsy_rotation _ ⟨"main", some Json.null⟩ rfl (Or.inr ⟨Json.null, rfl, rfl⟩)

/-- C5: `GET /api/holidays/:year` fans out one fetch per configured country
and joins on all of them: any single failure yields a 500 with a generic
message and no partial data; full success yields the per-country arrays
flattened in order into one combined array. -/
theorem claim5_holidays_all_or_nothing (fetchFor : String → Except String (List Json)) :
    (∀ lSK lNO lDK, fetchFor "SK" = .ok lSK → fetchFor "NO" = .ok lNO →
        fetchFor "DK" = .ok lDK →
        getHolidays fetchFor = (200, .payload (lSK ++ lNO ++ lDK))) ∧
    ((∃ c ∈ countries, ∃ e, fetchFor c = .error e) →
        getHolidays fetchFor = (500, .message "Failed to fetch public holidays")) := by
  constructor
  · intro lSK lNO lDK h1 h2 h3
    simp [getHolidays, countries, h1, h2, h3, promiseAll, Except.map]
  · intro h
    have hex : ∃ x ∈ countries.map fetchFor, ∃ e, x = Except.error e := by
      rcases h with ⟨c, hc, e, hce⟩
      exact ⟨fetchFor c, List.mem_map_of_mem _ hc, e, hce⟩
    obtain ⟨e, he⟩ := promiseAll_eq_error (countries.map fetchFor) hex
    simp [getHolidays, he]

/-- Witness for C5: all three fetches succeeding, and the NO fetch failing. -/
theorem claim5_witness :
    getHolidays (fun _ => .ok [Json.str "x"]) =
      (200, .payload [Json.str "x", Json.str "x", Json.str "x"]) ∧
    getHolidays (fun c => if c = "NO" then .error "boom" else .ok [Json.str "x"]) =
      (500, .message "Failed to fetch public holidays") :=
  ⟨(claim5_holidays_all_or_nothing (fun _ => .ok [Json.str "x"])).1
      [Json.str "x"] [Json.str "x"] [Json.str "x"] rfl rfl rfl,
   (claim5_holidays_all_or_nothing
      (fun c => if c = "NO" then .error "boom" else .ok [Json.str "x"])).2
      ⟨"NO", by decide, "boom", rfl⟩⟩

/-- C8 as stated is refuted by the code: on a collection whose single
document carries the negative id `-5`, the assigned id is `-4`, which is not
a positive integer. -/
theorem claim8_counterexample :
    nextMemberId ⟨[⟨some (-5), some "a"⟩], [], []⟩ = -4 ∧
    (postMember (some "x") ⟨[⟨some (-5), some "a"⟩], [], []⟩).1.2
      = .created ⟨some (-4), some "x"⟩ ∧
    ¬(1 ≤ (-4 : Int)) :=
  ⟨by decide, by decide, by decide⟩

/-- C8 (amended): when every present id in the collection is nonnegative —
true of every store the API itself builds — the assigned id is at least 1;
and it is exactly 1 when the collection is empty, and when the document
ranked first by the descending-id sort has a missing/null or zero id field
(nothing checks whether an id 1 already exists). -/
theorem claim8_assigned_id_positive :
    (∀ db : DB, (∀ d ∈ db.members, ∀ n : Int, d.id = some n → 0 ≤ n) →
        1 ≤ nextMemberId db) ∧
    (∀ db : DB, (∀ d ∈ db.timeoff, ∀ n : Int, d.id = some n → 0 ≤ n) →
        1 ≤ nextTimeOffId db) ∧
    (∀ db : DB, db.members = [] → nextMemberId db = 1) ∧
    (∀ db : DB, db.timeoff = [] → nextTimeOffId db = 1) ∧
    (∀ (db : DB) (d : Member),
        (List.insertionSort memberIdGe db.members).head? = some d →
        d.id = none ∨ d.id = some 0 → nextMemberId db = 1) ∧
    (∀ (db : DB) (d : TimeOff),
        (List.insertionSort timeOffIdGe db.timeoff).head? = some d →
        d.id = none ∨ d.id = some 0 → nextTimeOffId db = 1) := by
  refine ⟨?_, ?_, ?_, ?_, ?_, ?_⟩
  · intro db h
    cases hh : (List.insertionSort memberIdGe db.members).head? with
    | none => simp [nextMemberId, hh]
    | some d =>
      have hdmem : d ∈ db.members := (head_insertionSort_rel memberIdGe hh).1
      cases hid : d.id with
      | none => simp [nextMemberId, hh, hid]
      | some n =>
        have hn := h d hdmem n hid
        simp only [nextMemberId, hh, hid, Option.getD_some]
        omega
  · intro db h
    cases hh : (List.insertionSort timeOffIdGe db.timeoff).head? with
    | none => simp [nextTimeOffId, hh]
    | some d =>
      have hdmem : d ∈ db.timeoff := (head_insertionSort_rel timeOffIdGe hh).1
      cases hid : d.id with
      | none => simp [nextTimeOffId, hh, hid]
      | some n =>
        have hn := h d hdmem n hid
        simp only [nextTimeOffId, hh, hid, Option.getD_some]
        omega
  · intro db h
    simp [nextMemberId, h, List.insertionSort]
  · intro db h
    simp [nextTimeOffId, h, List.insertionSort]
  · intro db d hh hid
    rcases hid with hid | hid <;> simp [nextMemberId, hh, hid]
  · intro db d hh hid
    rcases hid with hid | hid <;> simp [nextTimeOffId, hh, hid]

/-- Witness for C8 (amended): a nonnegative-id store, the empty store, and a
store whose first-ranked document has a zero id. -/
theorem claim8_witness :
    1 ≤ nextMemberId ⟨[⟨some 2, some "a"⟩], [], []⟩ ∧
    nextMemberId ⟨[], [], []⟩ = 1 ∧
    nextMemberId ⟨[⟨some 0, some "z"⟩], [], []⟩ = 1 :=
  ⟨claim8_assigned_id_positive.1 _
      (by intro d hd n hn; simp at hd; subst hd; simp at hn; omega),
   claim8_assigned_id_positive.2.2.1 _ rfl,
   claim8_assigned_id_positive.2.2.2.2.1 _ ⟨some 0, some "z"⟩ rfl (Or.inr rfl)⟩

end TeamCalendar
